import Mathlib

/-!
# ethereum-metrics-exporter: polling and state-lifecycle core

A shallow embedding of

* `pkg/exporter/execution/execution.go`      (`node.SyncStatus`)
* `pkg/exporter/consensus/beacon/beacon.go`  (`Node.Start`, `Node.tick`,
  `Node.InitializeState`, `Node.GetSpec`)
* `pkg/exporter/consensus/jobs/general.go`   (`NewGeneralJob`, `General.Start`,
  `General.tick`, `General.GetNodeVersion`, `General.GetBeaconSlot`, `General.ObserveSlot`)

Conventions of the embedding.

* A Go `error` is `Option Error` (`none` is the nil error); a Go pointer or interface value
  that may be nil is an `Option`; the answer `(value, error)` of a client call is an
  `Except Error` of the value, and a value that is a pointer is an `Option` there too, so
  that `.ok none` is the answer `(nil, nil)`.
* Dereferencing a nil pointer is the outcome `panic`.
* Remote clients are deterministic functions of the history of calls made so far, so a
  client may answer differently on every call.
* Loggers, metric sinks and gauges are allocated objects; what is written to them is kept
  as a list of entries in the order of writing.
* `uint64` counters are natural numbers; the code only copies them.
-/

namespace Exporter

/-- A Go `error`, identified by its message. -/
abbrev Error := String

/-- The result of running a Go function that may dereference a nil pointer. -/
inductive Outcome (α : Type) where
  | panic : Outcome α
  | ret (a : α) : Outcome α

/-! ## Execution node (`pkg/exporter/execution/execution.go`) -/

namespace execution

/-- The fields of `ethereum.SyncProgress` read by `node.SyncStatus`. -/
structure SyncProgress where
  StartingBlock : Nat
  CurrentBlock : Nat
  HighestBlock : Nat
deriving DecidableEq, Repr

/-- The `SyncStatus` struct of the execution package, with the fields `node.SyncStatus`
sets. -/
structure SyncStatus where
  IsSyncing : Bool
  CurrentBlock : Nat
  HighestBlock : Nat
  StartingBlock : Nat
deriving DecidableEq, Repr

/-- The Go composite literal `SyncStatus{}`: every field has its zero value. -/
def SyncStatus.zero : SyncStatus :=
  { IsSyncing := false, CurrentBlock := 0, HighestBlock := 0, StartingBlock := 0 }

/-- An `*ethclient.Client`: what `SyncProgress(ctx)` answers. `.error err` is a non-nil
error, `.ok none` is the answer "no progress object and no error", `.ok (some p)` a progress
object without error. -/
structure Client where
  SyncProgress : Except Error (Option execution.SyncProgress)

/-- The `Metrics` sink of the execution package: the statuses handed to
`ObserveSyncStatus`, oldest first. -/
structure Metrics where
  syncStatuses : List SyncStatus
deriving DecidableEq, Repr

/-- Records one call `metrics.ObserveSyncStatus(status)`. -/
def Metrics.ObserveSyncStatus (m : Metrics) (status : SyncStatus) : Metrics :=
  { m with syncStatuses := m.syncStatuses ++ [status] }

/-- The `node` struct; `client` is nil until `Bootstrap` has dialled. -/
structure node where
  name : String
  url : String
  client : Option Client
  metrics : Metrics

/-- Go `func (e *node) Bootstrapped() bool`. -/
def node.Bootstrapped (e : node) : Bool :=
  e.client.isSome

/-- Go `func (e *node) SyncStatus(ctx) (*SyncStatus, error)`. The result is the returned pair
(`.ok status` for a status with a nil error, `.error err` for a nil status with an error)
together with the node after the call; on a nil client the call panics. -/
def node.SyncStatus (e : node) : Outcome (Except Error execution.SyncStatus × node) :=
  match e.client with
  | none => .panic
  | some client =>
    match client.SyncProgress with
    | .error err => .ret (.error err, e)
    | .ok none =>
      -- Not syncing
      let syncStatus := execution.SyncStatus.zero
      let syncStatus := { syncStatus with IsSyncing := false }
      let e := { e with metrics := e.metrics.ObserveSyncStatus syncStatus }
      .ret (.ok syncStatus, e)
    | .ok (some status) =>
      let syncStatus : execution.SyncStatus :=
        { IsSyncing := true
          CurrentBlock := status.CurrentBlock
          HighestBlock := status.HighestBlock
          StartingBlock := status.StartingBlock }
      let e := { e with metrics := e.metrics.ObserveSyncStatus syncStatus }
      .ret (.ok syncStatus, e)

/-- The quotient the specification gives for the percentage, before clamping:
`(currentBlock - startingBlock) / (highestBlock - startingBlock) * 100`. -/
def rawPercent (s : SyncStatus) : ℚ :=
  ((s.CurrentBlock : ℚ) - (s.StartingBlock : ℚ)) /
    ((s.HighestBlock : ℚ) - (s.StartingBlock : ℚ)) * 100

/-- Modelled from the spec: `SyncStatus.Percent`, the method whose result
`ObserveSyncStatus` hands to the percentage gauge; its body is not part of the files
embedded here. The specification (section 4.3) computes
`(currentBlock - startingBlock) / (highestBlock - startingBlock) * 100`, defines the result
as 100 when `highestBlock == startingBlock`, and clamps it into `[0, 100]`. Exact rational
arithmetic is used for the quotient. -/
def SyncStatus.Percent (s : SyncStatus) : ℚ :=
  if s.HighestBlock = s.StartingBlock then 100
  else max 0 (min 100 (rawPercent s))

/-! ### Concrete nodes -/

/-- A client that is fully caught up: no progress object, no error. -/
def idleClient : Client :=
  { SyncProgress := .ok none }

/-- A client at block 50 of 100, having started at block 7. -/
def busyClient : Client :=
  { SyncProgress := .ok (some { StartingBlock := 7, CurrentBlock := 50, HighestBlock := 100 }) }

/-- A bootstrapped node on `client` that has observed nothing yet. -/
def bootstrapped (client : Client) : node :=
  { name := "execution", url := "http://localhost:8545", client := some client,
    metrics := { syncStatuses := [] } }

end execution

/-! ## Consensus side: what the collectors share -/

namespace consensus

/-- The calls a collector makes on its beacon client and on the collaborators that
`beacon.go` uses without defining them. -/
inductive Call where
  /-- Go `provider.NodeVersion(ctx)` -/
  | NodeVersion
  /-- Go `provider.BeaconBlockHeader(ctx, blockID)` -/
  | BeaconBlockHeader (blockID : String)
  /-- Go `provider.Spec(ctx)` -/
  | Spec
  /-- Go `n.GetGenesis(ctx)` -/
  | GetGenesis
  /-- Go `st.Init(ctx)` -/
  | Init
deriving DecidableEq, Repr

/-- The logrus levels used by the collectors. -/
inductive Level where
  | info
  | error
deriving DecidableEq, Repr

/-- One log line: `log.Info(msg)` or `log.WithError(err).Error(msg)`. -/
structure LogEntry where
  level : Level
  msg : String
  err : Option Error
deriving DecidableEq, Repr

/-- What a collector leaves behind outside its own struct: the calls it made, oldest
first, and the lines it logged. -/
structure World where
  calls : List Call
  log : List LogEntry
deriving DecidableEq, Repr

/-- Appends one call to the history. -/
def World.call (w : World) (c : Call) : World :=
  { w with calls := w.calls ++ [c] }

/-- Go `log.Info(msg)`. -/
def World.Info (w : World) (msg : String) : World :=
  { w with log := w.log ++ [{ level := .info, msg := msg, err := none }] }

/-- Go `log.WithError(err).Error(msg)`. -/
def World.Error (w : World) (err : Error) (msg : String) : World :=
  { w with log := w.log ++ [{ level := .error, msg := msg, err := some err }] }

/-- The part of a `phase0.BeaconBlockHeader` the collector reads. -/
structure phase0.BeaconBlockHeader where
  Slot : Nat
deriving DecidableEq, Repr

/-- The part of a `phase0.SignedBeaconBlockHeader` the collector reads: the pointer
`Message`. -/
structure phase0.SignedBeaconBlockHeader where
  Message : Option phase0.BeaconBlockHeader
deriving DecidableEq, Repr

/-- The part of a `v1.BeaconBlockHeader` the collector reads: the pointer `Header`. -/
structure BeaconBlockHeader where
  Header : Option phase0.SignedBeaconBlockHeader
deriving DecidableEq, Repr

/-- The answer of `Spec(ctx)`: a Go `map[string]interface{}`, kept as its entries. -/
abbrev SpecData := List (String × String)

/-- An `eth2client.Service` value. Each optional interface of the client library is a
field: `none` when the concrete client does not implement it, otherwise the method, which
answers from the history of calls made so far. -/
structure Service where
  NodeVersionProvider : Option (List Call → Except Error String)
  BeaconBlockHeadersProvider :
    Option (List Call → String → Except Error (Option BeaconBlockHeader))
  SpecProvider : Option (List Call → Except Error SpecData)

/-- The type assertion `client.(eth2client.NodeVersionProvider)`; a nil interface value
(`none`) implements nothing. -/
def asNodeVersionProvider (client : Option Service) :
    Option (List Call → Except Error String) :=
  client.bind fun c => c.NodeVersionProvider

/-- The type assertion `client.(eth2client.BeaconBlockHeadersProvider)`. -/
def asBeaconBlockHeadersProvider (client : Option Service) :
    Option (List Call → String → Except Error (Option BeaconBlockHeader)) :=
  client.bind fun c => c.BeaconBlockHeadersProvider

/-- The type assertion `client.(eth2client.SpecProvider)`. -/
def asSpecProvider (client : Option Service) :
    Option (List Call → Except Error SpecData) :=
  client.bind fun c => c.SpecProvider

/-- The moment at which the context handed to `Start` is cancelled, measured by the
progress of the loop. -/
inductive Context where
  /-- never cancelled -/
  | background
  /-- already cancelled when `Start` is called -/
  | cancelled
  /-- cancelled after `k` interval waits of the loop have elapsed in full: during the wait
  number `k` (counted from 0) or during the tick before it -/
  | cancelAfter (k : Nat)
deriving DecidableEq, Repr

/-- Whether `<-ctx.Done()` is ready before the timer of the `select` number `round`
(counted from 0) fires. `select` takes the `ctx.Done()` case then, and the timer case
otherwise. -/
def Context.Done (ctx : Context) (round : Nat) : Bool :=
  match ctx with
  | .background => false
  | .cancelled => true
  | .cancelAfter k => decide (k ≤ round)

/-- Go `ctx.Err()` of a cancelled context. -/
def Context.Err : Error := "context canceled"

/-- What a `Start` loop does, in order. -/
inductive Action where
  /-- one call of `tick(ctx)` -/
  | tick
  /-- Go `<-time.After(time.Second * seconds)` elapsed in full -/
  | wait (seconds : Nat)
  /-- the `return` of the `ctx.Done()` case -/
  | exit
deriving DecidableEq, Repr

/-- A run of a `Start` loop: its actions, the collector and world as the last tick that
returned left them, and how the run ended (`none` while the loop is still running). -/
structure Run (σ ρ : Type) where
  trace : List Action
  state : σ
  world : World
  result : Option ρ

/-- The trace of `k` rounds of a loop that waits `seconds` and then ticks. -/
def rounds (seconds : Nat) : Nat → List Action
  | 0 => []
  | k + 1 => .wait seconds :: .tick :: rounds seconds k

/-- A world with `k` earlier node-version calls and an empty log. -/
def worldAfter (k : Nat) : World :=
  { calls := List.replicate k .NodeVersion, log := [] }

end consensus

/-! ## General metrics job (`pkg/exporter/consensus/jobs/general.go`) -/

namespace jobs

open consensus

/-- A Go `map[string]string` (`prometheus.Labels`) that has been allocated: the value
stored under each key, `none` for an absent key. -/
abbrev Labels := String → Option String

/-- The statement `m[key] = value` on a map. -/
def Labels.set (m : Labels) (key value : String) : Labels :=
  fun k => if k = key then some value else m k

/-- A gauge sample `float64(x)` of an unsigned integer `x`, kept by its operand. -/
structure Float64 where
  ofUint64 ::
  operand : Nat
deriving DecidableEq, Repr

/-- The fields of `prometheus.GaugeOpts` the job fills in. -/
structure GaugeOpts where
  Namespace : String
  Name : String
  Help : String
  ConstLabels : Labels

/-- A `prometheus.GaugeVec`: its options, its variable label names, and every
`WithLabelValues(lvs...).Set(x)` made on it, oldest first. -/
structure GaugeVec where
  opts : GaugeOpts
  labelNames : List String
  samples : List (List String × Float64)

/-- A `prometheus.Gauge` without variable labels, with every `Set(x)` made on it. -/
structure Gauge where
  opts : GaugeOpts
  samples : List Float64

/-- Go `prometheus.NewGaugeVec(opts, labelNames)`. -/
def NewGaugeVec (opts : GaugeOpts) (labelNames : List String) : GaugeVec :=
  { opts := opts, labelNames := labelNames, samples := [] }

/-- Go `prometheus.NewGauge(opts)`. -/
def NewGauge (opts : GaugeOpts) : Gauge :=
  { opts := opts, samples := [] }

/-- Go `v.WithLabelValues(lvs...).Set(x)`. -/
def GaugeVec.Set (v : GaugeVec) (lvs : List String) (x : Float64) : GaugeVec :=
  { v with samples := v.samples ++ [(lvs, x)] }

/-- Go `g.Set(x)`. -/
def Gauge.Set (g : Gauge) (x : Float64) : Gauge :=
  { g with samples := g.samples ++ [x] }

/-- The value a scrape reads for the label values `lvs`: the last one set, if any. -/
def GaugeVec.value (v : GaugeVec) (lvs : List String) : Option Float64 :=
  (v.samples.reverse.find? fun p => decide (p.1 = lvs)).map fun p => p.2

/-- The `General` struct. The logger it holds writes to `World.log`. -/
structure General where
  client : Option Service
  Slots : GaugeVec
  NodeVersion : GaugeVec
  NetworkdID : Gauge

/-- Go `const NameGeneral`. -/
def NameGeneral : String := "general"

/-- Go `func NewGeneralJob(client, log, namespace, constLabels) General`. The map argument is
shared with the caller, so the result carries, next to the job, the map as the caller
finds it after the call. -/
def NewGeneralJob (client : Option Service) (namespace_ : String) (constLabels : Labels) :
    General × Labels :=
  let constLabels := Labels.set constLabels "module" NameGeneral
  ({ client := client
     Slots := NewGaugeVec
       { Namespace := namespace_
         Name := "slot_number"
         Help := "The slot number of the beacon chain."
         ConstLabels := constLabels }
       ["identifier"]
     NodeVersion := NewGaugeVec
       { Namespace := namespace_
         Name := "node_version"
         Help := "The version of the running beacon node."
         ConstLabels := constLabels }
       ["version"]
     NetworkdID := NewGauge
       { Namespace := namespace_
         Name := "network_id"
         Help := "The network id of the node."
         ConstLabels := constLabels } },
   constLabels)

/-- Go `func (g *General) Name() string`. -/
def General.Name (_g : General) : String :=
  NameGeneral

/-- Go `func (g *General) ObserveSlot(identifier string, slot uint64)`. -/
def General.ObserveSlot (g : General) (identifier : String) (slot : Nat) : General :=
  { g with Slots := g.Slots.Set [identifier] (Float64.ofUint64 slot) }

/-- Go `func (g *General) ObserveNetworkID(networkID uint64)`. -/
def General.ObserveNetworkID (g : General) (networkID : Nat) : General :=
  { g with NetworkdID := g.NetworkdID.Set (Float64.ofUint64 networkID) }

/-- Go `func (g *General) GetNodeVersion(ctx) error`. -/
def General.GetNodeVersion (g : General) (w : World) : Option Error × General × World :=
  match asNodeVersionProvider g.client with
  | none => (some "client does not implement eth2client.NodeVersionProvider", g, w)
  | some provider =>
    let answer := provider w.calls
    let w := w.call .NodeVersion
    match answer with
    | .error err => (some err, g, w)
    | .ok version =>
      (none, { g with NodeVersion := g.NodeVersion.Set [version] (Float64.ofUint64 1) }, w)

/-- Go `func (g *General) GetBeaconSlot(ctx, identifier string) error`. The slot is read
as `block.Header.Message.Slot` without a nil check; each of the three pointers panics when
it is nil. -/
def General.GetBeaconSlot (g : General) (w : World) (identifier : String) :
    Outcome (Option Error × General × World) :=
  match asBeaconBlockHeadersProvider g.client with
  | none =>
    .ret (some "client does not implement eth2client.BeaconBlockHeadersProvider", g, w)
  | some provider =>
    let answer := provider w.calls identifier
    let w := w.call (.BeaconBlockHeader identifier)
    match answer with
    | .error err => .ret (some err, g, w)
    | .ok block =>
      match block with
      | none => .panic
      | some block =>
        match block.Header with
        | none => .panic
        | some header =>
          match header.Message with
          | none => .panic
          | some message => .ret (none, g.ObserveSlot identifier message.Slot, w)

/-- The `if err := ...; err != nil { g.log.WithError(err).Error(msg) }` around each query
of `tick`. -/
def logFailure (r : Option Error × General × World) (msg : String) : General × World :=
  match r with
  | (some err, g, w) => (g, w.Error err msg)
  | (none, g, w) => (g, w)

/-- Go `func (g *General) tick(ctx)`. A panic of one of its queries ends the tick. -/
def General.tick (g : General) (w : World) : Outcome (General × World) :=
  let (g, w) := logFailure (g.GetNodeVersion w) "Failed to get node version"
  match g.GetBeaconSlot w "head" with
  | .panic => .panic
  | .ret r =>
    let (g, w) := logFailure r "Failed to get beacon slot: head"
    match g.GetBeaconSlot w "genesis" with
    | .panic => .panic
    | .ret r =>
      let (g, w) := logFailure r "Failed to get beacon slot: genesis"
      match g.GetBeaconSlot w "finalized" with
      | .panic => .panic
      | .ret r => .ret (logFailure r "Failed to get beacon slot: finalized")

/-- The `for { select { ... } }` of `General.Start`, run for at most `fuel` rounds of the
`select`; `round` counts the rounds already made. A tick that panics ends the run. -/
def General.loop (ctx : Context) :
    Nat → Nat → General → World → Run General (Outcome Unit)
  | 0, _, g, w => { trace := [], state := g, world := w, result := none }
  | fuel + 1, round, g, w =>
    if ctx.Done round then
      { trace := [.exit], state := g, world := w, result := some (.ret ()) }
    else
      match g.tick w with
      | .panic => { trace := [.wait 15, .tick], state := g, world := w, result := some .panic }
      | .ret (g1, w1) =>
        let r := General.loop ctx fuel (round + 1) g1 w1
        { r with trace := .wait 15 :: .tick :: r.trace }

/-- Go `func (g *General) Start(ctx)`. -/
def General.Start (ctx : Context) (fuel : Nat) (g : General) (w : World) :
    Run General (Outcome Unit) :=
  match g.tick w with
  | .panic => { trace := [.tick], state := g, world := w, result := some .panic }
  | .ret (g1, w1) =>
    let r := General.loop ctx fuel 0 g1 w1
    { r with trace := .tick :: r.trace }

/-- The state of the job after `k` ticks, with the world they leave; `panic` when one of
them panics. -/
def General.ticks : Nat → General → World → Outcome (General × World)
  | 0, g, w => .ret (g, w)
  | k + 1, g, w =>
    match g.tick w with
    | .panic => .panic
    | .ret (g1, w1) => General.ticks k g1 w1

/-! ### The client's side of one tick

What the four queries of a tick obtain from a client handle, stated on the client alone:
an unsupported capability is an error of the attempt and issues no call. -/

/-- What asking for the node version obtains, given the calls made before. -/
def askNodeVersion (client : Option Service) (history : List Call) : Except Error String :=
  match asNodeVersionProvider client with
  | none => .error "client does not implement eth2client.NodeVersionProvider"
  | some provider => provider history

/-- What asking for the header `identifier` obtains, given the calls made before. -/
def askBeaconBlockHeader (client : Option Service) (history : List Call)
    (identifier : String) : Except Error (Option BeaconBlockHeader) :=
  match asBeaconBlockHeadersProvider client with
  | none => .error "client does not implement eth2client.BeaconBlockHeadersProvider"
  | some provider => provider history identifier

/-- The call that reaches the client when the node version is asked for. -/
def versionCalls (client : Option Service) : List Call :=
  if (asNodeVersionProvider client).isSome then [.NodeVersion] else []

/-- The call that reaches the client when the header `identifier` is asked for. -/
def headerCalls (client : Option Service) (identifier : String) : List Call :=
  if (asBeaconBlockHeadersProvider client).isSome then [.BeaconBlockHeader identifier] else []

/-- The outcomes of the four queries of one tick, asked in the order node version,
"head", "genesis", "finalized", each after the calls of the ones before it. -/
structure Answers where
  version : Except Error String
  head : Except Error (Option BeaconBlockHeader)
  genesis : Except Error (Option BeaconBlockHeader)
  finalized : Except Error (Option BeaconBlockHeader)
  calls : List Call

/-- The outcomes of one tick on `client` after the calls `history`. -/
def answers (client : Option Service) (history : List Call) : Answers :=
  let h1 := history ++ versionCalls client
  let h2 := h1 ++ headerCalls client "head"
  let h3 := h2 ++ headerCalls client "genesis"
  { version := askNodeVersion client history
    head := askBeaconBlockHeader client h1 "head"
    genesis := askBeaconBlockHeader client h2 "genesis"
    finalized := askBeaconBlockHeader client h3 "finalized"
    calls := h3 ++ headerCalls client "finalized" }

/-- The `node_version` sample a version answer is worth: one for a success, none for a
failure. -/
def versionSample : Except Error String → List (List String × Float64)
  | .ok version => [([version], Float64.ofUint64 1)]
  | .error _ => []

/-- The slot behind the three pointers `block`, `block.Header` and
`block.Header.Message`, when none of them is nil. -/
def headerSlot (block : Option BeaconBlockHeader) : Option Nat :=
  match block with
  | none => none
  | some block =>
    match block.Header with
    | none => none
    | some header =>
      match header.Message with
      | none => none
      | some message => some message.Slot

/-- A header with all its pointers set, at `slot`. -/
def headerAt (slot : Nat) : Option BeaconBlockHeader :=
  some { Header := some { Message := some { Slot := slot } } }

/-- Whether a header answer can be read: it is an error, or a header whose slot is behind
non-nil pointers. -/
def readable : Except Error (Option BeaconBlockHeader) → Bool
  | .error _ => true
  | .ok block => (headerSlot block).isSome

/-- The `slot_number` sample a header answer is worth. -/
def slotSample (identifier : String) :
    Except Error (Option BeaconBlockHeader) → List (List String × Float64)
  | .ok block =>
    match headerSlot block with
    | some slot => [([identifier], Float64.ofUint64 slot)]
    | none => []
  | .error _ => []

/-- The Go `error` of an answer. -/
def answerError {α : Type} : Except Error α → Option Error
  | .ok _ => none
  | .error err => some err

/-- Whether the three header answers of a tick can all be read. -/
def Answers.readable (a : Answers) : Bool :=
  jobs.readable a.head && jobs.readable a.genesis && jobs.readable a.finalized

/-- The error line an answer is worth: one for a failure, none for a success. -/
def failureLine {α : Type} (msg : String) : Except Error α → List LogEntry
  | .ok _ => []
  | .error err => [{ level := .error, msg := msg, err := some err }]

/-! ### Concrete clients and jobs -/

/-- A client that implements none of the optional interfaces. -/
def bareClient : Service :=
  { NodeVersionProvider := none, BeaconBlockHeadersProvider := none, SpecProvider := none }

/-- A client that reports its version and the headers "head" and "genesis", fails on any
other header, and serves the spec from its second call on. -/
def lighthouse : Service :=
  { NodeVersionProvider := some fun _ => .ok "Lighthouse/v2.1.0"
    BeaconBlockHeadersProvider := some fun _ identifier =>
      if identifier = "head" then .ok (headerAt 3141592)
      else if identifier = "genesis" then .ok (headerAt 0)
      else .error "404 not found"
    SpecProvider := some fun history =>
      if history.length = 0 then .error "connection refused"
      else .ok [("SECONDS_PER_SLOT", "12"), ("SLOTS_PER_EPOCH", "32")] }

/-- The labels `NewMetrics` builds before it creates its jobs. -/
def consensusLabels : Labels :=
  Labels.set (Labels.set (fun _ => none) "ethereum_role" "consensus") "node_name" "beacon-1"

/-- A general job on the `lighthouse` client. -/
def lighthouseJob : General :=
  (NewGeneralJob (some lighthouse) "eth" consensusLabels).1

/-- A client on a chain that has no finalized block yet. It reports its version and the
headers "head" and "genesis"; for any other header it answers as the client library does
on a 404 response: no header and no error. -/
def unfinalized : Service :=
  { NodeVersionProvider := some fun _ => .ok "Prysm/v2.0.6"
    BeaconBlockHeadersProvider := some fun _ identifier =>
      if identifier = "head" then .ok (headerAt 17)
      else if identifier = "genesis" then .ok (headerAt 0)
      else .ok none
    SpecProvider := none }

/-- A general job on the `unfinalized` client. -/
def unfinalizedJob : General :=
  (NewGeneralJob (some unfinalized) "eth" consensusLabels).1

/-- A general job created on a nil client handle. -/
def nilJob : General :=
  (NewGeneralJob none "eth" consensusLabels).1

end jobs

/-! ## Beacon node (`pkg/exporter/consensus/beacon/beacon.go`) -/

namespace beacon

open consensus

/-- What `beacon.go` uses and does not define: the types and functions of the `state`
package and the method `Node.GetGenesis`. They are parameters of the embedding.

* `GetGenesis cache history` is `n.GetGenesis(ctx)` on a node whose `genesis` field holds
  `cache`: its answer and the `genesis` field afterwards. As the accessor of the genesis
  it may write that field; the `state` field is written by `InitializeState` alone.
* `NewContainer spec genesis` is `state.NewContainer(ctx, log, spec, genesis, events)`.
* `Init st history` is `st.Init(ctx)`: an error, or the container as initialised. -/
structure Deps where
  Spec : Type
  Genesis : Type
  Container : Type
  NewSpec : SpecData → Spec
  GetGenesis : Option Genesis → List Call → Except Error Genesis × Option Genesis
  NewContainer : Spec → Genesis → Container
  Init : Container → List Call → Except Error Container

/-- The `Node` struct. The logger it holds writes to `World.log`; `api` and `events` are
not read by the functions below except to be handed on. -/
structure Node (d : Deps) where
  client : Option Service
  genesis : Option d.Genesis
  state : Option d.Container

/-- Go `func NewNode(ctx, log, ap, client, events) *Node`. -/
def NewNode (d : Deps) (client : Option Service) : Node d :=
  { client := client, genesis := none, state := none }

/-- Go `func (n *Node) GetSpec(ctx) (*state.Spec, error)`. -/
def Node.GetSpec {d : Deps} (n : Node d) (w : World) : Except Error d.Spec × World :=
  match asSpecProvider n.client with
  | none => (.error "client does not implement eth2client.SpecProvider", w)
  | some provider =>
    let answer := provider w.calls
    let w := w.call .Spec
    match answer with
    | .error err => (.error err, w)
    | .ok data =>
      let spec := d.NewSpec data
      (.ok spec, w)

/-- Go `func (n *Node) InitializeState(ctx) error`. -/
def Node.InitializeState {d : Deps} (n : Node d) (w : World) :
    Option Error × Node d × World :=
  let w := w.Info "Initializing beacon state"
  match n.GetSpec w with
  | (.error err, w) => (some err, n, w)
  | (.ok spec, w) =>
    let answer := d.GetGenesis n.genesis w.calls
    let w := w.call .GetGenesis
    let n := { n with genesis := answer.2 }
    match answer.1 with
    | .error err => (some err, n, w)
    | .ok genesis =>
      let st := d.NewContainer spec genesis
      let initialised := d.Init st w.calls
      let w := w.call .Init
      match initialised with
      | .error err => (some err, n, w)
      | .ok st => (none, { n with state := some st }, w)

/-- Go `func (n *Node) tick(ctx)`. -/
def Node.tick {d : Deps} (n : Node d) (w : World) : Node d × World :=
  match n.state with
  | none =>
    match n.InitializeState w with
    | (some err, n, w) => (n, w.Error err "Failed to initialize state")
    | (none, n, w) => (n, w)
  | some _ => (n, w)

/-- The `for { select { ... } }` of `Node.Start`, run for at most `fuel` rounds of the
`select`; `round` counts the rounds already made. -/
def Node.loop {d : Deps} (ctx : Context) : Nat → Nat → Node d → World → Run (Node d) Error
  | 0, _, n, w => { trace := [], state := n, world := w, result := none }
  | fuel + 1, round, n, w =>
    if ctx.Done round then
      { trace := [.exit], state := n, world := w, result := some Context.Err }
    else
      let (n, w) := n.tick w
      let r := Node.loop ctx fuel (round + 1) n w
      { r with trace := .wait 1 :: .tick :: r.trace }

/-- Go `func (n *Node) Start(ctx) error`. -/
def Node.Start {d : Deps} (ctx : Context) (fuel : Nat) (n : Node d) (w : World) :
    Run (Node d) Error :=
  Node.loop ctx fuel 0 n w

/-- The state of the node after `k` ticks, with the world they leave. -/
def Node.ticks {d : Deps} : Nat → Node d → World → Node d × World
  | 0, n, w => (n, w)
  | k + 1, n, w =>
    let (n, w) := n.tick w
    Node.ticks k n w

/-! ### A concrete `state` package -/

/-- A `state` package whose genesis is available once three calls have been made and whose
container initialises once six calls have been made. -/
def lateDeps : Deps :=
  { Spec := SpecData
    Genesis := Nat
    Container := SpecData × Nat
    NewSpec := fun data => data
    GetGenesis := fun cache history =>
      if history.length < 3 then (.error "genesis not available", cache)
      else (.ok 1606824023, cache)
    NewContainer := fun spec genesis => (spec, genesis)
    Init := fun st history =>
      if history.length < 6 then .error "no head event yet" else .ok st }

/-- A fresh node of `lateDeps` on the `lighthouse` client. -/
def lateNode : Node lateDeps :=
  NewNode lateDeps (some jobs.lighthouse)

/-- A node of `lateDeps` whose state container has been stored. -/
def readyNode : Node lateDeps :=
  { lateNode with state := some ([("SECONDS_PER_SLOT", "12"), ("SLOTS_PER_EPOCH", "32")], 1606824023) }

end beacon

/-! # Theorems -/

/-! ## Execution node -/

namespace execution

/-- C2: when the `SyncProgress` query of the node's client answers "no progress object, no
error", `SyncStatus` returns a nil error and the status with `IsSyncing = false` and the
three block counters zero, and the metrics sink receives exactly one more
`ObserveSyncStatus` call, with that status. -/
theorem SyncStatus_not_syncing (e : node) (client : Client)
    (hclient : e.client = some client) (hquery : client.SyncProgress = .ok none) :
    e.SyncStatus =
      .ret (.ok { IsSyncing := false, CurrentBlock := 0, HighestBlock := 0, StartingBlock := 0 },
        { e with metrics :=
            { syncStatuses := e.metrics.syncStatuses ++
                [{ IsSyncing := false, CurrentBlock := 0, HighestBlock := 0,
                   StartingBlock := 0 }] } }) := by
  unfold node.SyncStatus
  rw [hclient]
  simp only [hquery]
  rfl

/-- Witness of C2 on a bootstrapped node whose client reports no progress. -/
theorem SyncStatus_not_syncing_witness :
    (bootstrapped idleClient).SyncStatus =
      .ret (.ok { IsSyncing := false, CurrentBlock := 0, HighestBlock := 0, StartingBlock := 0 },
        { bootstrapped idleClient with metrics :=
            { syncStatuses := (bootstrapped idleClient).metrics.syncStatuses ++
                [{ IsSyncing := false, CurrentBlock := 0, HighestBlock := 0,
                   StartingBlock := 0 }] } }) :=
  SyncStatus_not_syncing (bootstrapped idleClient) idleClient rfl rfl

/-- C3: when the `SyncProgress` query answers a progress object `p` without error,
`SyncStatus` returns a nil error and the status with `IsSyncing = true` and the three
counters of `p`, each under its own name, and the metrics sink receives exactly one more
`ObserveSyncStatus` call, with the status returned. -/
theorem SyncStatus_syncing (e : node) (client : Client) (p : SyncProgress)
    (hclient : e.client = some client) (hquery : client.SyncProgress = .ok (some p)) :
    e.SyncStatus =
      .ret (.ok { IsSyncing := true, CurrentBlock := p.CurrentBlock,
                  HighestBlock := p.HighestBlock, StartingBlock := p.StartingBlock },
        { e with metrics :=
            { syncStatuses := e.metrics.syncStatuses ++
                [{ IsSyncing := true, CurrentBlock := p.CurrentBlock,
                   HighestBlock := p.HighestBlock, StartingBlock := p.StartingBlock }] } }) := by
  unfold node.SyncStatus
  rw [hclient]
  simp only [hquery]
  rfl

/-- Witness of C3 on a node whose client reports block 50 of 100, started at 7. -/
theorem SyncStatus_syncing_witness :
    (bootstrapped busyClient).SyncStatus =
      .ret (.ok { IsSyncing := true, CurrentBlock := 50, HighestBlock := 100,
                  StartingBlock := 7 },
        { bootstrapped busyClient with metrics :=
            { syncStatuses := (bootstrapped busyClient).metrics.syncStatuses ++
                [{ IsSyncing := true, CurrentBlock := 50, HighestBlock := 100,
                   StartingBlock := 7 }] } }) :=
  SyncStatus_syncing (bootstrapped busyClient) busyClient
    { StartingBlock := 7, CurrentBlock := 50, HighestBlock := 100 } rfl rfl

/-- C9 as stated fails: at currentBlock = 200, startingBlock = 0, highestBlock = 100 the
two counters differ, the quotient is 200, and the percentage is 100. -/
theorem Percent_not_the_quotient_above_highest :
    (SyncStatus.mk true 200 100 0).HighestBlock ≠ (SyncStatus.mk true 200 100 0).StartingBlock ∧
    rawPercent (SyncStatus.mk true 200 100 0) = 200 ∧
    SyncStatus.Percent (SyncStatus.mk true 200 100 0) = 100 ∧
    SyncStatus.Percent (SyncStatus.mk true 200 100 0) ≠ rawPercent (SyncStatus.mk true 200 100 0) := by
  refine ⟨by decide, ?_, ?_, ?_⟩ <;> norm_num [SyncStatus.Percent, rawPercent]

/-- C9, amended: the percentage is the quotient
`(currentBlock - startingBlock) / (highestBlock - startingBlock) * 100` clamped into
`[0, 100]` when `highestBlock != startingBlock`, which is the quotient itself whenever
`startingBlock <= currentBlock <= highestBlock`; it is 100 when
`highestBlock == startingBlock`; it always lies in `[0, 100]`; and it is 50 for
currentBlock = 50, startingBlock = 0, highestBlock = 100. -/
theorem Percent_clamped (s : SyncStatus) :
    (s.HighestBlock ≠ s.StartingBlock → s.Percent = max 0 (min 100 (rawPercent s))) ∧
    (s.HighestBlock ≠ s.StartingBlock → s.StartingBlock ≤ s.CurrentBlock →
      s.CurrentBlock ≤ s.HighestBlock → s.Percent = rawPercent s) ∧
    (s.HighestBlock = s.StartingBlock → s.Percent = 100) ∧
    (0 ≤ s.Percent ∧ s.Percent ≤ 100) ∧
    SyncStatus.Percent (SyncStatus.mk true 50 100 0) = 50 := by
  refine ⟨?_, ?_, ?_, ?_, ?_⟩
  · intro h
    simp [SyncStatus.Percent, h]
  · intro h hsc hch
    have hsh : s.StartingBlock < s.HighestBlock := by omega
    have hden : (0 : ℚ) < (s.HighestBlock : ℚ) - (s.StartingBlock : ℚ) := by
      have : (s.StartingBlock : ℚ) < (s.HighestBlock : ℚ) := by exact_mod_cast hsh
      linarith
    have hnum : (0 : ℚ) ≤ (s.CurrentBlock : ℚ) - (s.StartingBlock : ℚ) := by
      have : (s.StartingBlock : ℚ) ≤ (s.CurrentBlock : ℚ) := by exact_mod_cast hsc
      linarith
    have hle : (s.CurrentBlock : ℚ) - (s.StartingBlock : ℚ) ≤
        (s.HighestBlock : ℚ) - (s.StartingBlock : ℚ) := by
      have : (s.CurrentBlock : ℚ) ≤ (s.HighestBlock : ℚ) := by exact_mod_cast hch
      linarith
    have h0 : 0 ≤ rawPercent s := by
      unfold rawPercent
      exact mul_nonneg (div_nonneg hnum hden.le) (by norm_num)
    have h100 : rawPercent s ≤ 100 := by
      unfold rawPercent
      have : ((s.CurrentBlock : ℚ) - (s.StartingBlock : ℚ)) /
          ((s.HighestBlock : ℚ) - (s.StartingBlock : ℚ)) ≤ 1 := (div_le_one hden).mpr hle
      linarith
    simp [SyncStatus.Percent, h, min_eq_right h100, max_eq_right h0]
  · intro h
    simp [SyncStatus.Percent, h]
  · unfold SyncStatus.Percent
    split
    · norm_num
    · exact ⟨le_max_left _ _, max_le (by norm_num) (min_le_left _ _)⟩
  · norm_num [SyncStatus.Percent, rawPercent]

/-- Witness of C9, amended, at the status the claim names. -/
theorem Percent_clamped_witness :
    SyncStatus.Percent (SyncStatus.mk true 50 100 0) = rawPercent (SyncStatus.mk true 50 100 0) ∧
    SyncStatus.Percent (SyncStatus.mk true 50 100 0) = 50 :=
  ⟨(Percent_clamped (SyncStatus.mk true 50 100 0)).2.1 (by decide) (by decide) (by decide),
   (Percent_clamped (SyncStatus.mk true 50 100 0)).2.2.2.2⟩

end execution

/-! ## General metrics job -/

namespace jobs

open consensus

/-- The node-version query of `tick` with its error handling, on the client's answer. -/
theorem logFailure_GetNodeVersion (g : General) (w : World) (msg : String) :
    logFailure (g.GetNodeVersion w) msg =
      ({ g with NodeVersion :=
          { g.NodeVersion with samples :=
              g.NodeVersion.samples ++ versionSample (askNodeVersion g.client w.calls) } },
       { calls := w.calls ++ versionCalls g.client
         log := w.log ++ failureLine msg (askNodeVersion g.client w.calls) }) := by
  unfold General.GetNodeVersion askNodeVersion versionCalls
  cases hp : asNodeVersionProvider g.client with
  | none => simp [logFailure, World.Error, failureLine, versionSample]
  | some provider =>
    cases ha : provider w.calls with
    | error err =>
      simp [logFailure, World.Error, World.call, failureLine, versionSample, ha]
    | ok version =>
      simp [logFailure, World.call, failureLine, versionSample, GaugeVec.Set, ha]

/-- One header query on the client's answer: it returns when the answer can be read and
panics when it cannot. -/
theorem GetBeaconSlot_eq (g : General) (w : World) (identifier : String) :
    g.GetBeaconSlot w identifier =
      if readable (askBeaconBlockHeader g.client w.calls identifier) then
        .ret (answerError (askBeaconBlockHeader g.client w.calls identifier),
          { g with Slots :=
              { g.Slots with samples :=
                  g.Slots.samples ++
                    slotSample identifier (askBeaconBlockHeader g.client w.calls identifier) } },
          { calls := w.calls ++ headerCalls g.client identifier, log := w.log })
      else .panic := by
  unfold General.GetBeaconSlot askBeaconBlockHeader headerCalls
  cases hp : asBeaconBlockHeadersProvider g.client with
  | none => simp [readable, answerError, slotSample]
  | some provider =>
    cases ha : provider w.calls identifier with
    | error err => simp [readable, answerError, slotSample, World.call, ha]
    | ok block =>
      cases block with
      | none => simp [readable, headerSlot, ha]
      | some block =>
        cases hh : block.Header with
        | none => simp [readable, headerSlot, ha, hh]
        | some header =>
          cases hm : header.Message with
          | none => simp [readable, headerSlot, ha, hh, hm]
          | some message =>
            simp [readable, headerSlot, answerError, slotSample, World.call,
              General.ObserveSlot, GaugeVec.Set, ha, hh, hm]

/-- The error handling of `tick` around a header query that returned. -/
theorem logFailure_answer (g : General) (w : World) (msg : String)
    (a : Except Error (Option BeaconBlockHeader)) :
    logFailure (answerError a, g, w) msg = (g, { w with log := w.log ++ failureLine msg a }) := by
  cases a <;> simp [logFailure, answerError, failureLine, World.Error]

/-- One tick, on the client's answers: when the three header answers can be read the tick
returns, with one sample for each success and one error line for each failure; otherwise
it panics. -/
theorem tick_eq (g : General) (w : World) :
    g.tick w =
      if (answers g.client w.calls).readable then
        .ret
          ({ g with
              NodeVersion :=
                { g.NodeVersion with samples :=
                    g.NodeVersion.samples ++ versionSample (answers g.client w.calls).version }
              Slots :=
                { g.Slots with samples :=
                    g.Slots.samples ++
                      (slotSample "head" (answers g.client w.calls).head ++
                        (slotSample "genesis" (answers g.client w.calls).genesis ++
                          slotSample "finalized" (answers g.client w.calls).finalized)) } },
           { calls := (answers g.client w.calls).calls
             log := w.log ++
               (failureLine "Failed to get node version" (answers g.client w.calls).version ++
                 (failureLine "Failed to get beacon slot: head"
                     (answers g.client w.calls).head ++
                   (failureLine "Failed to get beacon slot: genesis"
                       (answers g.client w.calls).genesis ++
                     failureLine "Failed to get beacon slot: finalized"
                       (answers g.client w.calls).finalized))) })
      else .panic := by
  simp only [General.tick, logFailure_GetNodeVersion, GetBeaconSlot_eq, Answers.readable,
    answers, List.append_assoc]
  by_cases h1 : readable (askBeaconBlockHeader g.client (w.calls ++ versionCalls g.client)
      "head") = true
  · by_cases h2 : readable (askBeaconBlockHeader g.client
        (w.calls ++ (versionCalls g.client ++ headerCalls g.client "head")) "genesis") = true
    · by_cases h3 : readable (askBeaconBlockHeader g.client
          (w.calls ++ (versionCalls g.client ++ (headerCalls g.client "head" ++
            headerCalls g.client "genesis"))) "finalized") = true
      · simp [h1, h2, h3, logFailure_answer, List.append_assoc]
      · simp [h1, h2, h3, logFailure_answer, List.append_assoc]
    · simp [h1, h2, logFailure_answer, List.append_assoc]
  · simp [h1]

/-- C4, the defect: a header answer without error is read as `block.Header.Message.Slot`
with no nil check, so a tick does not return normally for every outcome of its queries. On
the `unfinalized` client, where "head" and "genesis" succeed and "finalized" is answered
with neither header nor error, the first two header queries return a nil error, the third
panics, and with it the tick and the `Start` loop, instead of the tick returning with the
two slot gauges written. -/
theorem tick_panics_on_header_without_error :
    askBeaconBlockHeader unfinalizedJob.client [.NodeVersion] "head" = .ok (headerAt 17) ∧
    askBeaconBlockHeader unfinalizedJob.client [.NodeVersion, .BeaconBlockHeader "head"]
      "genesis" = .ok (headerAt 0) ∧
    askBeaconBlockHeader unfinalizedJob.client
      [.NodeVersion, .BeaconBlockHeader "head", .BeaconBlockHeader "genesis"]
      "finalized" = .ok none ∧
    unfinalizedJob.GetBeaconSlot (worldAfter 0) "finalized" = .panic ∧
    unfinalizedJob.tick (worldAfter 0) = .panic ∧
    (General.Start .background 1 unfinalizedJob (worldAfter 0)).result = some .panic ∧
    (General.Start .background 1 unfinalizedJob (worldAfter 0)).trace = [.tick] :=
  ⟨rfl, rfl, rfl, rfl, rfl, rfl, rfl⟩

/-- C10: `NewGeneralJob` writes to the map it is given. After the call the caller's map
holds "module" = "general", whatever it held under "module" before, and every other key
as before; and the `slot_number`, `node_version` and `network_id` gauges are built with
that augmented map as their constant labels. -/
theorem NewGeneralJob_writes_module_label (client : Option Service) (namespace_ : String)
    (constLabels : Labels) :
    (NewGeneralJob client namespace_ constLabels).2 "module" = some "general" ∧
    (∀ key, key ≠ "module" →
      (NewGeneralJob client namespace_ constLabels).2 key = constLabels key) ∧
    ((NewGeneralJob client namespace_ constLabels).1.Slots.opts.Name = "slot_number" ∧
      (NewGeneralJob client namespace_ constLabels).1.Slots.opts.ConstLabels =
        (NewGeneralJob client namespace_ constLabels).2) ∧
    ((NewGeneralJob client namespace_ constLabels).1.NodeVersion.opts.Name = "node_version" ∧
      (NewGeneralJob client namespace_ constLabels).1.NodeVersion.opts.ConstLabels =
        (NewGeneralJob client namespace_ constLabels).2) ∧
    ((NewGeneralJob client namespace_ constLabels).1.NetworkdID.opts.Name = "network_id" ∧
      (NewGeneralJob client namespace_ constLabels).1.NetworkdID.opts.ConstLabels =
        (NewGeneralJob client namespace_ constLabels).2) := by
  refine ⟨?_, ?_, ⟨rfl, rfl⟩, ⟨rfl, rfl⟩, ⟨rfl, rfl⟩⟩
  · simp [NewGeneralJob, Labels.set, NameGeneral]
  · intro key hkey
    simp [NewGeneralJob, Labels.set, hkey]

/-- Witness of C10 on the labels `NewMetrics` builds: "node_name" keeps its value. -/
theorem NewGeneralJob_writes_module_label_witness :
    (NewGeneralJob (some lighthouse) "eth" consensusLabels).2 "node_name" =
      consensusLabels "node_name" :=
  (NewGeneralJob_writes_module_label (some lighthouse) "eth" consensusLabels).2.1
    "node_name" (by decide)

/-- The loop of `General.Start` under a context that is never cancelled. While the ticks
return, every round is one full wait of 15 seconds followed by one tick and the loop does
not return; a tick that panics ends the run after its round. -/
theorem General_loop_background (fuel round : Nat) (g : General) (w : World) :
    (∀ r, General.ticks fuel g w = .ret r →
      (General.loop .background fuel round g w).trace = rounds 15 fuel ∧
      (General.loop .background fuel round g w).result = none ∧
      ((General.loop .background fuel round g w).state,
        (General.loop .background fuel round g w).world) = r) ∧
    (General.ticks fuel g w = .panic →
      (General.loop .background fuel round g w).result = some .panic ∧
      ∃ j, j < fuel ∧ (General.loop .background fuel round g w).trace = rounds 15 (j + 1)) := by
  induction fuel generalizing round g w with
  | zero =>
    refine ⟨?_, ?_⟩
    · intro r hr
      simp only [General.ticks, Outcome.ret.injEq] at hr
      subst hr
      simp [General.loop, rounds]
    · intro hp
      simp [General.ticks] at hp
  | succ fuel ih =>
    cases ht : g.tick w with
    | panic =>
      refine ⟨?_, ?_⟩
      · intro r hr
        simp [General.ticks, ht] at hr
      · intro _
        simp only [General.loop, Context.Done, ht]
        exact ⟨rfl, 0, by omega, rfl⟩
    | ret p =>
      obtain ⟨g1, w1⟩ := p
      have hticks : General.ticks (fuel + 1) g w = General.ticks fuel g1 w1 := by
        simp [General.ticks, ht]
      have hloop : General.loop .background (fuel + 1) round g w =
          { General.loop .background fuel (round + 1) g1 w1 with
            trace := .wait 15 :: .tick :: (General.loop .background fuel (round + 1) g1 w1).trace } := by
        simp [General.loop, Context.Done, ht]
      rw [hticks, hloop]
      refine ⟨?_, ?_⟩
      · intro r hr
        obtain ⟨h1, h2, h3⟩ := (ih (round + 1) g1 w1).1 r hr
        exact ⟨by simp [h1, rounds], h2, h3⟩
      · intro hp
        obtain ⟨h1, j, hj, h2⟩ := (ih (round + 1) g1 w1).2 hp
        refine ⟨h1, j + 1, by omega, ?_⟩
        show Action.wait 15 :: Action.tick :: _ = _
        rw [h2]
        rfl

/-- The loop of `General.Start` under a context cancelled after `m` more full waits. While
the ticks return it makes `m` rounds and returns; a tick that panics ends the run after
its round. -/
theorem General_loop_cancelAfter (m fuel round : Nat) (g : General) (w : World)
    (hfuel : m < fuel) :
    (∀ r, General.ticks m g w = .ret r →
      (General.loop (.cancelAfter (round + m)) fuel round g w).trace =
        rounds 15 m ++ [.exit] ∧
      (General.loop (.cancelAfter (round + m)) fuel round g w).result = some (.ret ()) ∧
      ((General.loop (.cancelAfter (round + m)) fuel round g w).state,
        (General.loop (.cancelAfter (round + m)) fuel round g w).world) = r) ∧
    (General.ticks m g w = .panic →
      (General.loop (.cancelAfter (round + m)) fuel round g w).result = some .panic ∧
      ∃ j, j < m ∧
        (General.loop (.cancelAfter (round + m)) fuel round g w).trace = rounds 15 (j + 1)) := by
  induction m generalizing fuel round g w with
  | zero =>
    obtain ⟨fuel, rfl⟩ : ∃ f, fuel = f + 1 := ⟨fuel - 1, by omega⟩
    refine ⟨?_, ?_⟩
    · intro r hr
      simp only [General.ticks, Outcome.ret.injEq] at hr
      subst hr
      simp [General.loop, Context.Done, rounds]
    · intro hp
      simp [General.ticks] at hp
  | succ m ih =>
    obtain ⟨fuel, rfl⟩ : ∃ f, fuel = f + 1 := ⟨fuel - 1, by omega⟩
    have hround : round + 1 + m = round + (m + 1) := by omega
    cases ht : g.tick w with
    | panic =>
      refine ⟨?_, ?_⟩
      · intro r hr
        simp [General.ticks, ht] at hr
      · intro _
        simp only [General.loop, Context.Done, ht]
        simp only [show ¬ (round + (m + 1) ≤ round) by omega, decide_False]
        exact ⟨rfl, 0, by omega, rfl⟩
    | ret p =>
      obtain ⟨g1, w1⟩ := p
      have hticks : General.ticks (m + 1) g w = General.ticks m g1 w1 := by
        simp [General.ticks, ht]
      have hloop : General.loop (.cancelAfter (round + (m + 1))) (fuel + 1) round g w =
          { General.loop (.cancelAfter (round + 1 + m)) fuel (round + 1) g1 w1 with
            trace := .wait 15 :: .tick ::
              (General.loop (.cancelAfter (round + 1 + m)) fuel (round + 1) g1 w1).trace } := by
        rw [hround]
        simp [General.loop, Context.Done, ht]
      rw [hticks, hloop]
      refine ⟨?_, ?_⟩
      · intro r hr
        obtain ⟨h1, h2, h3⟩ := (ih fuel (round + 1) g1 w1 (by omega)).1 r hr
        exact ⟨by simp [h1, rounds], h2, h3⟩
      · intro hp
        obtain ⟨h1, j, hj, h2⟩ := (ih fuel (round + 1) g1 w1 (by omega)).2 hp
        refine ⟨h1, j + 1, by omega, ?_⟩
        show Action.wait 15 :: Action.tick :: _ = _
        rw [h2]
        rfl

end jobs

/-! ## Beacon node -/

namespace beacon

open consensus

/-- The loop of `Node.Start` under a context that is never cancelled: every round is one
full wait of one second followed by one tick, and the loop does not return. -/
theorem Node_loop_background {d : Deps} (fuel round : Nat) (n : Node d) (w : World) :
    (Node.loop .background fuel round n w).trace = rounds 1 fuel ∧
    (Node.loop .background fuel round n w).result = none ∧
    ((Node.loop .background fuel round n w).state,
      (Node.loop .background fuel round n w).world) = Node.ticks fuel n w := by
  induction fuel generalizing round n w with
  | zero => simp [Node.loop, rounds, Node.ticks]
  | succ fuel ih =>
    rcases ht : n.tick w with ⟨n1, w1⟩
    have h := ih (round + 1) n1 w1
    simp only [Node.loop, Context.Done, ht, rounds, Node.ticks]
    simpa using h

/-- The loop of `Node.Start` under a context cancelled after `m` more full waits: it makes
`m` rounds and returns `ctx.Err()`. -/
theorem Node_loop_cancelAfter {d : Deps} (m fuel round : Nat) (n : Node d) (w : World)
    (hfuel : m < fuel) :
    (Node.loop (.cancelAfter (round + m)) fuel round n w).trace = rounds 1 m ++ [.exit] ∧
    (Node.loop (.cancelAfter (round + m)) fuel round n w).result = some Context.Err ∧
    ((Node.loop (.cancelAfter (round + m)) fuel round n w).state,
      (Node.loop (.cancelAfter (round + m)) fuel round n w).world) = Node.ticks m n w := by
  induction m generalizing fuel round n w with
  | zero =>
    obtain ⟨fuel, rfl⟩ : ∃ f, fuel = f + 1 := ⟨fuel - 1, by omega⟩
    simp [Node.loop, Context.Done, rounds, Node.ticks]
  | succ m ih =>
    obtain ⟨fuel, rfl⟩ : ∃ f, fuel = f + 1 := ⟨fuel - 1, by omega⟩
    rcases ht : n.tick w with ⟨n1, w1⟩
    have h := ih fuel (round + 1) n1 w1 (by omega)
    have hround : round + 1 + m = round + (m + 1) := by omega
    rw [hround] at h
    simp only [Node.loop, Context.Done, ht, rounds, Node.ticks]
    simpa using h

/-- The method `GetSpec` asks the client anew on every call: with the capability present its result
is the client's answer at the current history, and the call is recorded. -/
theorem Node_GetSpec_of_provider {d : Deps} (n : Node d) (w : World)
    (p : List Call → Except Error SpecData) (hp : asSpecProvider n.client = some p) :
    n.GetSpec w = ((p w.calls).map d.NewSpec, w.call .Spec) := by
  unfold Node.GetSpec
  rw [hp]
  cases ha : p w.calls <;> simp [ha, Except.map]

/-- The method `InitializeState` never replaces the client handle of the node. -/
theorem Node_InitializeState_client {d : Deps} (n : Node d) (w : World) :
    (n.InitializeState w).2.1.client = n.client := by
  unfold Node.InitializeState Node.GetSpec
  cases hp : asSpecProvider n.client with
  | none => simp
  | some p =>
    simp only []
    cases ha : p (w.Info "Initializing beacon state").calls with
    | error err => simp
    | ok data =>
      simp only []
      cases hg : (d.GetGenesis n.genesis
          ((w.Info "Initializing beacon state").call .Spec).calls).1 with
      | error err => simp
      | ok genesis =>
        simp only []
        cases hi : d.Init (d.NewContainer (d.NewSpec data) genesis)
            (((w.Info "Initializing beacon state").call .Spec).call .GetGenesis).calls with
        | error err => simp
        | ok st => simp

/-- The method `InitializeState` on a client without the `SpecProvider` capability. -/
theorem Node_InitializeState_unsupported {d : Deps} (n : Node d) (w : World)
    (hp : asSpecProvider n.client = none) :
    n.InitializeState w =
      (some "client does not implement eth2client.SpecProvider", n,
        w.Info "Initializing beacon state") := by
  unfold Node.InitializeState Node.GetSpec
  rw [hp]

/-- The method `InitializeState` when the Spec fetch fails. -/
theorem Node_InitializeState_spec_error {d : Deps} (n : Node d) (w : World)
    (p : List Call → Except Error SpecData) (err : Error)
    (hp : asSpecProvider n.client = some p) (ha : p w.calls = .error err) :
    n.InitializeState w =
      (some err, n, (w.Info "Initializing beacon state").call .Spec) := by
  have ha1 : p (w.Info "Initializing beacon state").calls = .error err := ha
  unfold Node.InitializeState Node.GetSpec
  rw [hp]
  simp only [ha1]

/-- The method `InitializeState` when the Spec is fetched and the Genesis fetch fails. -/
theorem Node_InitializeState_genesis_error {d : Deps} (n : Node d) (w : World)
    (p : List Call → Except Error SpecData) (data : SpecData) (err : Error)
    (hp : asSpecProvider n.client = some p) (ha : p w.calls = .ok data)
    (hg : (d.GetGenesis n.genesis (w.calls ++ [.Spec])).1 = .error err) :
    n.InitializeState w =
      (some err, { n with genesis := (d.GetGenesis n.genesis (w.calls ++ [.Spec])).2 },
        ((w.Info "Initializing beacon state").call .Spec).call .GetGenesis) := by
  have ha1 : p (w.Info "Initializing beacon state").calls = .ok data := ha
  have hg1 : (d.GetGenesis n.genesis
      ((w.Info "Initializing beacon state").call .Spec).calls).1 = .error err := hg
  unfold Node.InitializeState Node.GetSpec
  rw [hp]
  simp only [ha1, hg1]
  rfl

/-- The method `InitializeState` when Spec and Genesis are fetched and `Init` of the new container
fails. -/
theorem Node_InitializeState_init_error {d : Deps} (n : Node d) (w : World)
    (p : List Call → Except Error SpecData) (data : SpecData) (genesis : d.Genesis)
    (err : Error)
    (hp : asSpecProvider n.client = some p) (ha : p w.calls = .ok data)
    (hg : (d.GetGenesis n.genesis (w.calls ++ [.Spec])).1 = .ok genesis)
    (hi : d.Init (d.NewContainer (d.NewSpec data) genesis)
      (w.calls ++ [.Spec] ++ [.GetGenesis]) = .error err) :
    n.InitializeState w =
      (some err, { n with genesis := (d.GetGenesis n.genesis (w.calls ++ [.Spec])).2 },
        (((w.Info "Initializing beacon state").call .Spec).call .GetGenesis).call .Init) := by
  have ha1 : p (w.Info "Initializing beacon state").calls = .ok data := ha
  have hg1 : (d.GetGenesis n.genesis
      ((w.Info "Initializing beacon state").call .Spec).calls).1 = .ok genesis := hg
  have hi1 : d.Init (d.NewContainer (d.NewSpec data) genesis)
      (((w.Info "Initializing beacon state").call .Spec).call .GetGenesis).calls =
        .error err := hi
  unfold Node.InitializeState Node.GetSpec
  rw [hp]
  simp only [ha1, hg1, hi1]
  rfl

/-- The method `InitializeState` when every step succeeds: the initialised container is stored. -/
theorem Node_InitializeState_ok {d : Deps} (n : Node d) (w : World)
    (p : List Call → Except Error SpecData) (data : SpecData) (genesis : d.Genesis)
    (st : d.Container)
    (hp : asSpecProvider n.client = some p) (ha : p w.calls = .ok data)
    (hg : (d.GetGenesis n.genesis (w.calls ++ [.Spec])).1 = .ok genesis)
    (hi : d.Init (d.NewContainer (d.NewSpec data) genesis)
      (w.calls ++ [.Spec] ++ [.GetGenesis]) = .ok st) :
    n.InitializeState w =
      (none,
        { n with genesis := (d.GetGenesis n.genesis (w.calls ++ [.Spec])).2, state := some st },
        (((w.Info "Initializing beacon state").call .Spec).call .GetGenesis).call .Init) := by
  have ha1 : p (w.Info "Initializing beacon state").calls = .ok data := ha
  have hg1 : (d.GetGenesis n.genesis
      ((w.Info "Initializing beacon state").call .Spec).calls).1 = .ok genesis := hg
  have hi1 : d.Init (d.NewContainer (d.NewSpec data) genesis)
      (((w.Info "Initializing beacon state").call .Spec).call .GetGenesis).calls =
        .ok st := hi
  unfold Node.InitializeState Node.GetSpec
  rw [hp]
  simp only [ha1, hg1, hi1]
  rfl

/-- A failed `InitializeState` leaves the `state` field as it was. -/
theorem Node_InitializeState_state_of_error {d : Deps} (n : Node d) (w : World)
    (herr : (n.InitializeState w).1 ≠ none) :
    (n.InitializeState w).2.1.state = n.state := by
  cases hp : asSpecProvider n.client with
  | none => rw [Node_InitializeState_unsupported n w hp]
  | some p =>
    cases ha : p w.calls with
    | error err => rw [Node_InitializeState_spec_error n w p err hp ha]
    | ok data =>
      cases hg : (d.GetGenesis n.genesis (w.calls ++ [.Spec])).1 with
      | error err => rw [Node_InitializeState_genesis_error n w p data err hp ha hg]
      | ok genesis =>
        cases hi : d.Init (d.NewContainer (d.NewSpec data) genesis)
            (w.calls ++ [.Spec] ++ [.GetGenesis]) with
        | error err => rw [Node_InitializeState_init_error n w p data genesis err hp ha hg hi]
        | ok st =>
          rw [Node_InitializeState_ok n w p data genesis st hp ha hg hi] at herr
          exact absurd rfl herr

/-- With the `SpecProvider` capability present, the first call `InitializeState` makes is
the Spec fetch. -/
theorem Node_InitializeState_calls {d : Deps} (n : Node d) (w : World)
    (p : List Call → Except Error SpecData) (hp : asSpecProvider n.client = some p) :
    ∃ rest, (n.InitializeState w).2.2.calls = w.calls ++ Call.Spec :: rest := by
  cases ha : p w.calls with
  | error err =>
    rw [Node_InitializeState_spec_error n w p err hp ha]
    exact ⟨[], by simp [World.call, World.Info]⟩
  | ok data =>
    cases hg : (d.GetGenesis n.genesis (w.calls ++ [.Spec])).1 with
    | error err =>
      rw [Node_InitializeState_genesis_error n w p data err hp ha hg]
      exact ⟨[.GetGenesis], by simp [World.call, World.Info]⟩
    | ok genesis =>
      cases hi : d.Init (d.NewContainer (d.NewSpec data) genesis)
          (w.calls ++ [.Spec] ++ [.GetGenesis]) with
      | error err =>
        rw [Node_InitializeState_init_error n w p data genesis err hp ha hg hi]
        exact ⟨[.GetGenesis, .Init], by simp [World.call, World.Info]⟩
      | ok st =>
        rw [Node_InitializeState_ok n w p data genesis st hp ha hg hi]
        exact ⟨[.GetGenesis, .Init], by simp [World.call, World.Info]⟩

/-- The method `InitializeState` logs its one info line first and nothing else. -/
theorem Node_InitializeState_log {d : Deps} (n : Node d) (w : World) :
    (n.InitializeState w).2.2.log =
      w.log ++ [{ level := .info, msg := "Initializing beacon state", err := none }] := by
  cases hp : asSpecProvider n.client with
  | none => rw [Node_InitializeState_unsupported n w hp]; rfl
  | some p =>
    cases ha : p w.calls with
    | error err => rw [Node_InitializeState_spec_error n w p err hp ha]; rfl
    | ok data =>
      cases hg : (d.GetGenesis n.genesis (w.calls ++ [.Spec])).1 with
      | error err => rw [Node_InitializeState_genesis_error n w p data err hp ha hg]; rfl
      | ok genesis =>
        cases hi : d.Init (d.NewContainer (d.NewSpec data) genesis)
            (w.calls ++ [.Spec] ++ [.GetGenesis]) with
        | error err =>
          rw [Node_InitializeState_init_error n w p data genesis err hp ha hg hi]; rfl
        | ok st => rw [Node_InitializeState_ok n w p data genesis st hp ha hg hi]; rfl

/-- A tick on a node whose state is set changes nothing. -/
theorem Node_tick_of_ready {d : Deps} (n : Node d) (w : World) (c : d.Container)
    (hs : n.state = some c) : n.tick w = (n, w) := by
  unfold Node.tick
  rw [hs]

/-- A tick on a node whose state is nil runs `InitializeState` and logs its error. -/
theorem Node_tick_of_nil {d : Deps} (n : Node d) (w : World) (hs : n.state = none) :
    (n.tick w).1 = (n.InitializeState w).2.1 ∧
    ∃ rest, (n.tick w).2.log =
      w.log ++ { level := .info, msg := "Initializing beacon state", err := none } :: rest := by
  have hlog := Node_InitializeState_log n w
  unfold Node.tick
  rw [hs]
  rcases hr : n.InitializeState w with ⟨err, n1, w1⟩
  rw [hr] at hlog
  cases err with
  | none => exact ⟨rfl, [], by simpa using hlog⟩
  | some err =>
    refine ⟨rfl, [{ level := .error, msg := "Failed to initialize state", err := some err }], ?_⟩
    simp only [World.Error]
    simp only [] at hlog
    rw [hlog]
    simp

/-- Any number of ticks on a node whose state is set change nothing. -/
theorem Node_ticks_of_ready {d : Deps} (k : Nat) (n : Node d) (w : World) (c : d.Container)
    (hs : n.state = some c) : Node.ticks k n w = (n, w) := by
  induction k with
  | zero => rfl
  | succ k ih =>
    unfold Node.ticks
    rw [Node_tick_of_ready n w c hs]
    exact ih

/-- Ticks compose. -/
theorem Node_ticks_add {d : Deps} (i m : Nat) (n : Node d) (w : World) :
    Node.ticks (i + m) n w = Node.ticks m (Node.ticks i n w).1 (Node.ticks i n w).2 := by
  induction i generalizing n w with
  | zero => simp [Node.ticks]
  | succ i ih =>
    rcases ht : n.tick w with ⟨n1, w1⟩
    have h := ih n1 w1
    have hi : i + 1 + m = (i + m) + 1 := by omega
    rw [hi]
    simp only [Node.ticks, ht]
    exact h

/-- C1: `InitializeState` is atomic on failure. Whenever it returns a non-nil error the
`state` field of the node is what it was before the call; it returns a non-nil error when
the client lacks the `SpecProvider` capability, when the Spec fetch fails, when the
Genesis fetch fails, and when `Init` of the new container fails; and a call that follows a
failed one on a client with the capability asks the client for the Spec again, as its
first call, and works with the answer the client gives then. -/
theorem InitializeState_atomic_on_failure {d : Deps} (n : Node d) (w : World) :
    ((n.InitializeState w).1 ≠ none → (n.InitializeState w).2.1.state = n.state) ∧
    (asSpecProvider n.client = none →
      (n.InitializeState w).1 = some "client does not implement eth2client.SpecProvider") ∧
    (∀ p err, asSpecProvider n.client = some p → p w.calls = .error err →
      (n.InitializeState w).1 = some err) ∧
    (∀ p data err, asSpecProvider n.client = some p → p w.calls = .ok data →
      (d.GetGenesis n.genesis (w.calls ++ [.Spec])).1 = .error err →
      (n.InitializeState w).1 = some err) ∧
    (∀ p data genesis err, asSpecProvider n.client = some p → p w.calls = .ok data →
      (d.GetGenesis n.genesis (w.calls ++ [.Spec])).1 = .ok genesis →
      d.Init (d.NewContainer (d.NewSpec data) genesis) (w.calls ++ [.Spec] ++ [.GetGenesis]) =
        .error err →
      (n.InitializeState w).1 = some err) ∧
    (∀ p, asSpecProvider n.client = some p → (n.InitializeState w).1 ≠ none →
      (n.InitializeState w).2.1.GetSpec (n.InitializeState w).2.2 =
        ((p (n.InitializeState w).2.2.calls).map d.NewSpec,
          (n.InitializeState w).2.2.call .Spec) ∧
      ∃ rest,
        ((n.InitializeState w).2.1.InitializeState (n.InitializeState w).2.2).2.2.calls =
          (n.InitializeState w).2.2.calls ++ Call.Spec :: rest) := by
  refine ⟨Node_InitializeState_state_of_error n w, ?_, ?_, ?_, ?_, ?_⟩
  · intro hp
    rw [Node_InitializeState_unsupported n w hp]
  · intro p err hp ha
    rw [Node_InitializeState_spec_error n w p err hp ha]
  · intro p data err hp ha hg
    rw [Node_InitializeState_genesis_error n w p data err hp ha hg]
  · intro p data genesis err hp ha hg hi
    rw [Node_InitializeState_init_error n w p data genesis err hp ha hg hi]
  · intro p hp _
    have hclient : asSpecProvider (n.InitializeState w).2.1.client = some p := by
      rw [Node_InitializeState_client n w]
      exact hp
    exact ⟨Node_GetSpec_of_provider _ _ p hclient, Node_InitializeState_calls _ _ p hclient⟩

/-- Witness of C1 on a fresh node of `lateDeps`: the Spec fetch fails on an empty history,
the Genesis fetch fails after one earlier call, `Init` fails after two; each time the error
is returned and the state stays nil. -/
theorem InitializeState_atomic_on_failure_witness :
    ((lateNode.InitializeState (worldAfter 0)).1 = some "connection refused" ∧
      (lateNode.InitializeState (worldAfter 0)).2.1.state = none) ∧
    ((lateNode.InitializeState (worldAfter 1)).1 = some "genesis not available" ∧
      (lateNode.InitializeState (worldAfter 1)).2.1.state = none) ∧
    ((lateNode.InitializeState (worldAfter 2)).1 = some "no head event yet" ∧
      (lateNode.InitializeState (worldAfter 2)).2.1.state = none) :=
  ⟨⟨(InitializeState_atomic_on_failure lateNode (worldAfter 0)).2.2.1
      _ "connection refused" rfl rfl,
    (InitializeState_atomic_on_failure lateNode (worldAfter 0)).1 (by decide)⟩,
   ⟨(InitializeState_atomic_on_failure lateNode (worldAfter 1)).2.2.2.1
      _ [("SECONDS_PER_SLOT", "12"), ("SLOTS_PER_EPOCH", "32")] "genesis not available"
      rfl rfl rfl,
    (InitializeState_atomic_on_failure lateNode (worldAfter 1)).1 (by decide)⟩,
   ⟨(InitializeState_atomic_on_failure lateNode (worldAfter 2)).2.2.2.2.1
      _ [("SECONDS_PER_SLOT", "12"), ("SLOTS_PER_EPOCH", "32")] (1606824023 : Nat)
      "no head event yet" rfl rfl rfl rfl,
    (InitializeState_atomic_on_failure lateNode (worldAfter 2)).1 (by decide)⟩⟩

/-- C6: ready is terminal under ticking. A tick attempts initialization (logs
"Initializing beacon state" and runs `InitializeState`) exactly when the state of the node
is nil; on a node whose state is set a tick makes no call, logs nothing and leaves the node
as it is, and so does any number of ticks; hence in a sequence of ticks a state that is
set after `i` ticks is the same state after every `j >= i` ticks. -/
theorem tick_initializes_only_when_state_is_nil {d : Deps} (n : Node d) (w : World) :
    (n.state = none ↔
      ∃ rest, (n.tick w).2.log =
        w.log ++ { level := .info, msg := "Initializing beacon state", err := none } :: rest) ∧
    (n.state = none → (n.tick w).1 = (n.InitializeState w).2.1) ∧
    (∀ c, n.state = some c → n.tick w = (n, w)) ∧
    (∀ c k, n.state = some c → Node.ticks k n w = (n, w)) ∧
    (∀ i j c, i ≤ j → (Node.ticks i n w).1.state = some c →
      (Node.ticks j n w).1.state = some c) := by
  refine ⟨⟨fun hs => (Node_tick_of_nil n w hs).2, ?_⟩, fun hs => (Node_tick_of_nil n w hs).1,
    fun c hs => Node_tick_of_ready n w c hs, fun c k hs => Node_ticks_of_ready k n w c hs, ?_⟩
  · rintro ⟨rest, hlog⟩
    cases hs : n.state with
    | none => rfl
    | some c =>
      rw [Node_tick_of_ready n w c hs] at hlog
      have hlen := congrArg List.length hlog
      simp at hlen
  · intro i j c hij hs
    obtain ⟨m, rfl⟩ : ∃ m, j = i + m := ⟨j - i, by omega⟩
    rw [Node_ticks_add, Node_ticks_of_ready m _ _ c hs]
    exact hs

/-- Witness of C6: a tick on `readyNode` changes nothing, and the fresh `lateNode`, whose
fourth tick stores a container, still holds that container after ten ticks. -/
theorem tick_initializes_only_when_state_is_nil_witness :
    readyNode.tick (worldAfter 0) = (readyNode, worldAfter 0) ∧
    (Node.ticks 3 lateNode (worldAfter 0)).1.state = none ∧
    (Node.ticks 10 lateNode (worldAfter 0)).1.state =
      some ([("SECONDS_PER_SLOT", "12"), ("SLOTS_PER_EPOCH", "32")], 1606824023) :=
  ⟨(tick_initializes_only_when_state_is_nil readyNode (worldAfter 0)).2.2.1 _ rfl,
   rfl,
   (tick_initializes_only_when_state_is_nil lateNode (worldAfter 0)).2.2.2.2 4 10 _
     (by decide) rfl⟩

end beacon

/-! ## Both collectors -/

namespace consensus

open jobs beacon

/-- C5: probing a missing capability has no effect. On a client handle that does not
implement the capability asked for, `GetNodeVersion`, `GetBeaconSlot` (for any identifier)
and `GetSpec` each return, without a panic, a non-nil error, leave the history of calls and the log as they
were, and leave the job with its gauges as it was, respectively return no Spec; a nil
handle implements none of the three capabilities. -/
theorem missing_capability_has_no_effect {d : Deps} (g : General) (n : Node d) (w : World)
    (identifier : String) :
    (asNodeVersionProvider g.client = none →
      g.GetNodeVersion w =
        (some "client does not implement eth2client.NodeVersionProvider", g, w)) ∧
    (asBeaconBlockHeadersProvider g.client = none →
      g.GetBeaconSlot w identifier =
        .ret (some "client does not implement eth2client.BeaconBlockHeadersProvider", g, w)) ∧
    (asSpecProvider n.client = none →
      n.GetSpec w = (.error "client does not implement eth2client.SpecProvider", w)) ∧
    (g.client = none →
      asNodeVersionProvider g.client = none ∧ asBeaconBlockHeadersProvider g.client = none) ∧
    (n.client = none → asSpecProvider n.client = none) := by
  refine ⟨?_, ?_, ?_, ?_, ?_⟩
  · intro h
    unfold General.GetNodeVersion
    rw [h]
  · intro h
    unfold General.GetBeaconSlot
    rw [h]
  · intro h
    unfold Node.GetSpec
    rw [h]
  · intro h
    rw [h]
    exact ⟨rfl, rfl⟩
  · intro h
    rw [h]
    rfl

/-- Witness of C5 on a nil client handle and on a client without optional interfaces. -/
theorem missing_capability_has_no_effect_witness :
    (nilJob.GetNodeVersion (worldAfter 2) =
        (some "client does not implement eth2client.NodeVersionProvider", nilJob,
          worldAfter 2) ∧
      nilJob.GetBeaconSlot (worldAfter 2) "head" =
        .ret (some "client does not implement eth2client.BeaconBlockHeadersProvider", nilJob,
          worldAfter 2)) ∧
    (NewNode lateDeps (some bareClient)).GetSpec (worldAfter 2) =
      (.error "client does not implement eth2client.SpecProvider", worldAfter 2) :=
  ⟨⟨(missing_capability_has_no_effect nilJob (NewNode lateDeps (some bareClient))
        (worldAfter 2) "head").1
      ((missing_capability_has_no_effect nilJob (NewNode lateDeps (some bareClient))
        (worldAfter 2) "head").2.2.2.1 rfl).1,
    (missing_capability_has_no_effect nilJob (NewNode lateDeps (some bareClient))
        (worldAfter 2) "head").2.1
      ((missing_capability_has_no_effect nilJob (NewNode lateDeps (some bareClient))
        (worldAfter 2) "head").2.2.2.1 rfl).2⟩,
   (missing_capability_has_no_effect nilJob (NewNode lateDeps (some bareClient))
      (worldAfter 2) "head").2.2.1 rfl⟩

/-- C7 as stated fails for the beacon node: under a context that is never cancelled the
first action of `Node.Start` is a full one-second wait, and its first tick comes after
it. -/
theorem Node_Start_waits_before_first_tick :
    (Node.Start .background 1 lateNode (worldAfter 0)).trace = [.wait 1, .tick] ∧
    (Node.Start .background 1 lateNode (worldAfter 0)).trace.head? ≠ some Action.tick := by
  refine ⟨rfl, ?_⟩
  decide

/-- C7, amended: under a context that is never cancelled, `General.Start` ticks first and
then repeats "wait 15 seconds, tick", while `Node.Start` repeats "wait one second, tick"
from the start, so that its first tick too follows one wait; in both loops every tick after
the first action is preceded by exactly one full wait of the loop's interval, the ticks of
the trace are the ticks applied to the collector, and the loop does not return. A tick of
the general job that panics ends its run there: the trace is then the same alternation,
cut after the tick that panicked. -/
theorem Start_ticks_between_waits {d : Deps} (fuel : Nat) (g : General) (n : Node d)
    (w : World) :
    (match General.ticks (fuel + 1) g w with
      | .ret r =>
        (General.Start .background fuel g w).trace = .tick :: rounds 15 fuel ∧
        (General.Start .background fuel g w).result = none ∧
        ((General.Start .background fuel g w).state,
          (General.Start .background fuel g w).world) = r
      | .panic =>
        (General.Start .background fuel g w).result = some .panic ∧
        ∃ j, j ≤ fuel ∧ (General.Start .background fuel g w).trace = .tick :: rounds 15 j) ∧
    ((Node.Start .background fuel n w).trace = rounds 1 fuel ∧
      (Node.Start .background fuel n w).result = none ∧
      ((Node.Start .background fuel n w).state,
        (Node.Start .background fuel n w).world) = Node.ticks fuel n w) := by
  refine ⟨?_, Node_loop_background fuel 0 n w⟩
  cases ht : g.tick w with
  | panic =>
    have hticks : General.ticks (fuel + 1) g w = .panic := by simp [General.ticks, ht]
    rw [hticks]
    refine ⟨?_, 0, by omega, ?_⟩ <;> simp [General.Start, ht, rounds]
  | ret p =>
    obtain ⟨g1, w1⟩ := p
    have hticks : General.ticks (fuel + 1) g w = General.ticks fuel g1 w1 := by
      simp [General.ticks, ht]
    have hstart : General.Start .background fuel g w =
        { General.loop .background fuel 0 g1 w1 with
          trace := .tick :: (General.loop .background fuel 0 g1 w1).trace } := by
      simp [General.Start, ht]
    rw [hticks, hstart]
    cases hk : General.ticks fuel g1 w1 with
    | panic =>
      obtain ⟨h1, j, hj, h2⟩ := (General_loop_background fuel 0 g1 w1).2 hk
      exact ⟨h1, j + 1, by omega, by simp [h2]⟩
    | ret r =>
      obtain ⟨h1, h2, h3⟩ := (General_loop_background fuel 0 g1 w1).1 r hk
      exact ⟨by simp [h1], h2, h3⟩

/-- Witness of C7, amended: three rounds of both loops on concrete collectors. -/
theorem Start_ticks_between_waits_witness :
    (General.Start .background 3 lighthouseJob (worldAfter 0)).trace =
      [.tick, .wait 15, .tick, .wait 15, .tick, .wait 15, .tick] ∧
    (Node.Start .background 3 lateNode (worldAfter 0)).trace =
      [.wait 1, .tick, .wait 1, .tick, .wait 1, .tick] :=
  ⟨(Start_ticks_between_waits 3 lighthouseJob lateNode (worldAfter 0)).1.1,
   (Start_ticks_between_waits 3 lighthouseJob lateNode (worldAfter 0)).2.1⟩

/-- C8 as stated fails for the general job: `General.Start` called with a context that is
already cancelled runs one tick, which queries the client four times, before it
returns. -/
theorem General_Start_ticks_once_when_cancelled :
    (General.Start .cancelled 1 lighthouseJob (worldAfter 0)).trace = [.tick, .exit] ∧
    (General.Start .cancelled 1 lighthouseJob (worldAfter 0)).result = some (.ret ()) ∧
    (General.Start .cancelled 1 lighthouseJob (worldAfter 0)).world.calls =
      [.NodeVersion, .BeaconBlockHeader "head", .BeaconBlockHeader "genesis",
       .BeaconBlockHeader "finalized"] :=
  ⟨rfl, rfl, rfl⟩

/-- C8, amended: a loop that reaches its `select` with the context cancelled returns
without another tick. With the context cancelled after `k` full waits and fuel for more
than `k` rounds, `General.Start` makes its first tick and `k` rounds and returns, and
`Node.Start` makes `k` rounds and returns `ctx.Err()`; the collector is left as the ticks
of the trace leave it. With the context already cancelled at the call, `Node.Start`
returns without any tick and leaves node and world untouched, while `General.Start` makes
its one unconditional first tick and then returns. A tick of the general job that panics
ends its run there, after at most the ticks it would have made. -/
theorem Start_returns_on_cancellation {d : Deps} (k fuel : Nat) (g : General) (n : Node d)
    (w : World) (hfuel : k < fuel) :
    (match General.ticks (k + 1) g w with
      | .ret r =>
        (General.Start (.cancelAfter k) fuel g w).trace = .tick :: (rounds 15 k ++ [.exit]) ∧
        (General.Start (.cancelAfter k) fuel g w).result = some (.ret ()) ∧
        ((General.Start (.cancelAfter k) fuel g w).state,
          (General.Start (.cancelAfter k) fuel g w).world) = r
      | .panic =>
        (General.Start (.cancelAfter k) fuel g w).result = some .panic ∧
        ∃ j, j ≤ k ∧ (General.Start (.cancelAfter k) fuel g w).trace = .tick :: rounds 15 j) ∧
    ((Node.Start (.cancelAfter k) fuel n w).trace = rounds 1 k ++ [.exit] ∧
      (Node.Start (.cancelAfter k) fuel n w).result = some Context.Err ∧
      ((Node.Start (.cancelAfter k) fuel n w).state,
        (Node.Start (.cancelAfter k) fuel n w).world) = Node.ticks k n w) ∧
    ((Node.Start .cancelled fuel n w).trace = [.exit] ∧
      (Node.Start .cancelled fuel n w).result = some Context.Err ∧
      (Node.Start .cancelled fuel n w).state = n ∧
      (Node.Start .cancelled fuel n w).world = w) ∧
    (match g.tick w with
      | .ret r =>
        (General.Start .cancelled fuel g w).trace = [.tick, .exit] ∧
        (General.Start .cancelled fuel g w).result = some (.ret ()) ∧
        ((General.Start .cancelled fuel g w).state,
          (General.Start .cancelled fuel g w).world) = r
      | .panic =>
        (General.Start .cancelled fuel g w).trace = [.tick] ∧
        (General.Start .cancelled fuel g w).result = some .panic) := by
  obtain ⟨f, rfl⟩ : ∃ f, fuel = f + 1 := ⟨fuel - 1, by omega⟩
  refine ⟨?_, ?_, ?_, ?_⟩
  · cases ht : g.tick w with
    | panic =>
      have hticks : General.ticks (k + 1) g w = .panic := by simp [General.ticks, ht]
      rw [hticks]
      refine ⟨?_, 0, by omega, ?_⟩ <;> simp [General.Start, ht, rounds]
    | ret p =>
      obtain ⟨g1, w1⟩ := p
      have hticks : General.ticks (k + 1) g w = General.ticks k g1 w1 := by
        simp [General.ticks, ht]
      have hstart : General.Start (.cancelAfter k) (f + 1) g w =
          { General.loop (.cancelAfter k) (f + 1) 0 g1 w1 with
            trace := .tick :: (General.loop (.cancelAfter k) (f + 1) 0 g1 w1).trace } := by
        simp [General.Start, ht]
      have hloop := General_loop_cancelAfter k (f + 1) 0 g1 w1 hfuel
      rw [Nat.zero_add] at hloop
      rw [hticks, hstart]
      cases hk : General.ticks k g1 w1 with
      | panic =>
        obtain ⟨h1, j, hj, h2⟩ := hloop.2 hk
        exact ⟨h1, j + 1, by omega, by simp [h2]⟩
      | ret r =>
        obtain ⟨h1, h2, h3⟩ := hloop.1 r hk
        exact ⟨by simp [h1], h2, h3⟩
  · have h := Node_loop_cancelAfter k (f + 1) 0 n w hfuel
    rw [Nat.zero_add] at h
    exact h
  · simp [Node.Start, Node.loop, Context.Done]
  · cases ht : g.tick w with
    | panic => simp [General.Start, ht]
    | ret p =>
      obtain ⟨g1, w1⟩ := p
      simp [General.Start, General.loop, Context.Done, ht]

/-- Witness of C8, amended: cancelled after two full waits, with fuel for five rounds. -/
theorem Start_returns_on_cancellation_witness :
    (General.Start (.cancelAfter 2) 5 lighthouseJob (worldAfter 0)).trace =
      [.tick, .wait 15, .tick, .wait 15, .tick, .exit] ∧
    (Node.Start (.cancelAfter 2) 5 lateNode (worldAfter 0)).trace =
      [.wait 1, .tick, .wait 1, .tick, .exit] ∧
    (Node.Start .cancelled 5 lateNode (worldAfter 0)).trace = [.exit] ∧
    (General.Start .cancelled 5 lighthouseJob (worldAfter 0)).trace = [.tick, .exit] :=
  ⟨(Start_returns_on_cancellation 2 5 lighthouseJob lateNode (worldAfter 0) (by decide)).1.1,
   (Start_returns_on_cancellation 2 5 lighthouseJob lateNode (worldAfter 0) (by decide)).2.1.1,
   (Start_returns_on_cancellation 2 5 lighthouseJob lateNode (worldAfter 0)
      (by decide)).2.2.1.1,
   (Start_returns_on_cancellation 2 5 lighthouseJob lateNode (worldAfter 0)
      (by decide)).2.2.2.1⟩

end consensus

end Exporter
